import Mathlib

/-!
Verification of the NBA player-statistics engine (resolution, filtering,
aggregation and percentile computation).

Shallow embedding of the core logic of src/helper/formula.py,
src/helper/percentile.py, src/helper/gamelog.py and the team-resolution
helper of src/stats.py.  External collaborators (the nba_api roster tables
and the remote game-log provider) are modelled as abstract inputs: a
TeamDirectory of lookup functions and an already-fetched list of game
records.  Box-score values are modelled as rationals; the pandas NaN that
results from a zero denominator is modelled as Option.none.
-/

namespace NBA

/-- A resolved player, as returned by the roster lookup
(players.find_players_by_full_name entries: id and full name). -/
structure PlayerIdentity where
  id : ℕ
  full_name : String
deriving DecidableEq, Repr

/-- A team row of the static team table (full_name, nickname, abbreviation
columns used by the resolution code). -/
structure TeamIdentity where
  full_name : String
  nickname : String
  abbreviation : String
deriving DecidableEq, Repr

/-- One game-log row (the columns the core logic reads: the MATCHUP string,
which pandas may hold as missing, and the numeric stat columns PTS, REB,
AST, BLK, STL, FG3M). -/
structure GameRecord where
  matchup : Option String
  pts : ℚ
  reb : ℚ
  ast : ℚ
  blk : ℚ
  stl : ℚ
  fg3m : ℚ
deriving DecidableEq, Repr

/-- The error taxonomy of the engine.  Every failure in the source is a
raised ValueError; the constructors separate them by the message built at
each raise site. -/
inductive Err where
  /-- "Player ... not found" / "Team ... not found". -/
  | notFound : Err
  /-- "Multiple players found for ...: {player_list}" (formula.py line 44,
  percentile.py line 43, gamelog.py line 46). -/
  | ambiguousPlayers : List PlayerIdentity → Err
  /-- "Multiple teams found for ...: full_name (ABBR), ..." (formula.py
  lines 148-150: human-readable pairs). -/
  | ambiguousTeams : List String → Err
  /-- "Multiple teams found for ...: {team_list}" (percentile.py line 230:
  the raw candidate list, no formatting). -/
  | ambiguousTeamsRaw : List TeamIdentity → Err
  /-- "No games found ..." (empty season log or empty opponent filter). -/
  | noData : Err
deriving DecidableEq, Repr

/-- The external static roster table, abstracted as the three lookup
functions the source calls (teams.find_team_by_abbreviation,
teams.find_teams_by_full_name, teams.find_teams_by_nickname). -/
structure TeamDirectory where
  byAbbreviation : String → Option TeamIdentity
  byFullName : String → List TeamIdentity
  byNickname : String → List TeamIdentity

/-- Uppercase a string character by character (models str.upper() on the
ASCII team abbreviations the code handles). -/
def upperStr (s : String) : String := ⟨s.data.map Char.toUpper⟩

/-- Lowercase character list of a string (models str.lower(), used both
for the exact nickname comparison and the case-insensitive MATCHUP
containment test). -/
def lowerChars (s : String) : List Char := s.data.map Char.toLower

/-- NameResolver: formula.py lines 38-46 (identically percentile.py lines
37-45 and gamelog.py lines 40-48).  The roster lookup result is passed in;
the code raises on zero or several matches and takes player_list[0]
otherwise. -/
def resolvePlayer (player_list : List PlayerIdentity) : Except Err PlayerIdentity :=
  match player_list with
  | [] => .error .notFound
  | [p] => .ok p
  | ps => .error (.ambiguousPlayers ps)

/-- Abbreviation stage of the team cascade (formula.py lines 126-129,
percentile.py lines 213-216, stats.py lines 51-54): attempted only when
the input is at most 3 characters, after uppercasing; a hit gives a
one-element candidate list. -/
def abbrevStage (d : TeamDirectory) (opponent_team : String) : List TeamIdentity :=
  if opponent_team.length ≤ 3 then (d.byAbbreviation (upperStr opponent_team)).toList
  else []

/-- Exact case-insensitive nickname matches among the nickname-stage
candidates (formula.py line 140: t['nickname'].lower() ==
opponent_team.lower()). -/
def exactNickMatches (d : TeamDirectory) (opponent_team : String) : List TeamIdentity :=
  (d.byNickname opponent_team).filter
    (fun t => lowerChars t.nickname == lowerChars opponent_team)

/-- Nickname stage as run by formula.py lines 136-142 (and stats.py lines
61-67): when the nickname lookup returns several candidates, re-filter for
an exact case-insensitive nickname match and keep the narrowed list if it
is non-empty. -/
def nicknameNarrow (d : TeamDirectory) (opponent_team : String) : List TeamIdentity :=
  let team_list := d.byNickname opponent_team
  if 1 < team_list.length then
    let exact_matches := exactNickMatches d opponent_team
    if exact_matches.isEmpty then team_list else exact_matches
  else team_list

/-- Candidate set produced by the stats-path cascade (formula.py lines
122-142): abbreviation, then full name, then narrowed nickname, first
non-empty stage wins. -/
def statsCandidates (d : TeamDirectory) (opponent_team : String) : List TeamIdentity :=
  let l1 := abbrevStage d opponent_team
  let l2 := if l1.isEmpty then d.byFullName opponent_team else l1
  if l2.isEmpty then nicknameNarrow d opponent_team else l2

/-- Candidate set produced by the percentile-path cascade (percentile.py
lines 209-224): abbreviation, then nickname (no narrowing), then full
name, first non-empty stage wins. -/
def percCandidates (d : TeamDirectory) (opponent_team : String) : List TeamIdentity :=
  let l1 := abbrevStage d opponent_team
  let l2 := if l1.isEmpty then d.byNickname opponent_team else l1
  if l2.isEmpty then d.byFullName opponent_team else l2

/-- Final verdict of the stats-path resolver (formula.py lines 144-152):
empty is "not found", several candidates raise with the formatted
"full_name (ABBR)" list, one candidate is returned. -/
def verdictStats (team_list : List TeamIdentity) : Except Err TeamIdentity :=
  match team_list with
  | [] => .error .notFound
  | [t] => .ok t
  | ts => .error (.ambiguousTeams
      (ts.map (fun t => t.full_name ++ " (" ++ t.abbreviation ++ ")")))

/-- Final verdict of the percentile-path resolver (percentile.py lines
226-232): empty is "not found", several candidates raise with the raw
candidate list, one candidate is returned. -/
def verdictPerc (team_list : List TeamIdentity) : Except Err TeamIdentity :=
  match team_list with
  | [] => .error .notFound
  | [t] => .ok t
  | ts => .error (.ambiguousTeamsRaw ts)

/-- TeamResolver as used by get_player_vs_team_stats (formula.py lines
122-152). -/
def resolveTeamStats (d : TeamDirectory) (opponent_team : String) : Except Err TeamIdentity :=
  verdictStats (statsCandidates d opponent_team)

/-- TeamResolver as used by get_player_percentiles_vs_team (percentile.py
lines 209-232). -/
def resolveTeamPerc (d : TeamDirectory) (opponent_team : String) : Except Err TeamIdentity :=
  verdictPerc (percCandidates d opponent_team)

/-- MATCHUP test of one row: df['MATCHUP'].str.contains(ab,
case=False, na=False) — case-insensitive substring containment, with a
missing matchup counting as False (formula.py line 168, percentile.py
line 249, stats.py line 566). -/
def matchupMatches (ab : String) (g : GameRecord) : Bool :=
  match g.matchup with
  | none => false
  | some m => decide (lowerChars ab <:+: lowerChars m)

/-- MatchupFilter: the row filter keeps matching rows in their original
order (a pandas boolean-mask selection). -/
def matchupFilter (ab : String) (games : List GameRecord) : List GameRecord :=
  games.filter (matchupMatches ab)

/-- Opponent filtering step including the emptiness check that follows it
(formula.py lines 167-171, percentile.py lines 248-252). -/
def filterVsTeam (ab : String) (games : List GameRecord) : Except Err (List GameRecord) :=
  let df_vs_team := matchupFilter ab games
  if df_vs_team.isEmpty then .error .noData else .ok df_vs_team

/-- The stat columns the aggregation reads. -/
inductive StatField where
  | pts | reb | ast | blk | stl | fg3m
deriving DecidableEq, Repr

/-- Column projection of one game row. -/
def statValue : StatField → GameRecord → ℚ
  | .pts, g => g.pts
  | .reb, g => g.reb
  | .ast, g => g.ast
  | .blk, g => g.blk
  | .stl, g => g.stl
  | .fg3m, g => g.fg3m

/-- The five columns used by the percentile functions, in source order
(percentile.py line 61: PTS, REB, AST, BLK, STL). -/
def percStatFields : List StatField := [.pts, .reb, .ast, .blk, .stl]

/-- Column mean, pandas Series.mean() (only reached on non-empty input in
the source). -/
def meanQ (xs : List ℚ) : ℚ := xs.sum / xs.length

/-- Square of the pandas Series.std() value: sample variance with ddof=1.
With a single value the zero denominator makes pandas return NaN, modelled
here as none; with two or more values the denominator is length - 1. -/
def sampleVariance (xs : List ℚ) : Option ℚ :=
  if xs.length ≤ 1 then none
  else some ((xs.map (fun x => (x - meanQ xs) ^ 2)).sum / ((xs.length : ℚ) - 1))

/-- The summary dictionary built by get_player_season_stats (formula.py
lines 62-80): per-field averages and standard deviations plus the game
count.  The std_devs entry stores the squared deviation so that the value
stays rational; none models the NaN of a one-game sample. -/
structure StatSummary where
  averages : StatField → ℚ
  std_devs : StatField → Option ℚ
  games_played : ℕ

/-- StatsAggregator: the empty check of formula.py lines 58-59 followed by
the stat dictionary of lines 62-80. -/
def summarize (games : List GameRecord) : Except Err StatSummary :=
  if games.isEmpty then .error .noData
  else .ok
    { averages := fun f => meanQ (games.map (statValue f))
      std_devs := fun f => sampleVariance (games.map (statValue f))
      games_played := games.length }

/-- Coefficient of variation as printed by print_player_season_stats
(formula.py lines 201-206) and shown by the GUI stat card (stats.py line
231): 100 * (std/avg) if avg > 0 else 0. -/
def coefficientOfVariation (std avg : ℚ) : ℚ :=
  if 0 < avg then 100 * (std / avg) else 0

/-- Linear-interpolation value at virtual index h of a sorted value list
(the interpolation rule of numpy.percentile: floor/ceil neighbours of h,
weighted by the fractional part; the upper neighbour is clipped to the
last index). -/
def interpAt (s : List ℚ) (h : ℚ) : ℚ :=
  s.getD (⌊h⌋).toNat 0
    + (h - ((⌊h⌋).toNat : ℚ))
      * (s.getD (min ((⌊h⌋).toNat + 1) (s.length - 1)) 0 - s.getD (⌊h⌋).toNat 0)

/-- numpy.percentile(data, q) with the default linear interpolation
(percentile.py lines 74-79): sort the values and interpolate at virtual
index q/100 * (n-1). -/
def percentileLin (q : ℚ) (xs : List ℚ) : ℚ :=
  let s := List.insertionSort (· ≤ ·) xs
  interpAt s (q / 100 * ((s.length : ℚ) - 1))

/-- The 25th/50th/75th/100th entries of one stat's percentile dictionary
(percentile.py lines 74-79). -/
structure QuartileSummary where
  p25 : ℚ
  p50 : ℚ
  p75 : ℚ
  p100 : ℚ

/-- One stat's slice of the percentile result: the percentile dictionary
entry together with the retained raw_data array. -/
structure FieldPercentiles where
  field : StatField
  quart : QuartileSummary
  raw_data : List ℚ

/-- The result dictionary of the percentile functions: per-field
percentiles and raw data plus games_played. -/
structure PercResult where
  perField : List FieldPercentiles
  games_played : ℕ

/-- PercentileCalculator: the empty check of percentile.py lines 57-58
followed by the per-stat percentile loop of lines 64-82 (identical loop at
lines 258-277). -/
def percentilesOf (games : List GameRecord) : Except Err PercResult :=
  if games.isEmpty then .error .noData
  else .ok
    { perField := percStatFields.map (fun f =>
        let data := games.map (statValue f)
        { field := f
          quart :=
            { p25 := percentileLin 25 data
              p50 := percentileLin 50 data
              p75 := percentileLin 75 data
              p100 := percentileLin 100 data }
          raw_data := data })
      games_played := games.length }

/-- get_player_season_stats (formula.py lines 13-82): resolve the player,
then aggregate the fetched season log (the empty check is part of
summarize). -/
def get_player_season_stats (player_list : List PlayerIdentity)
    (log : List GameRecord) : Except Err StatSummary :=
  match resolvePlayer player_list with
  | .error e => .error e
  | .ok _ => summarize log

/-- get_player_vs_team_stats (formula.py lines 85-194): resolve player and
team, check the season log for emptiness, filter by opponent, check again,
aggregate. -/
def get_player_vs_team_stats (player_list : List PlayerIdentity)
    (d : TeamDirectory) (opponent_team : String)
    (log : List GameRecord) : Except Err StatSummary :=
  match resolvePlayer player_list with
  | .error e => .error e
  | .ok _ =>
    match resolveTeamStats d opponent_team with
    | .error e => .error e
    | .ok team =>
      if log.isEmpty then .error .noData
      else
        match filterVsTeam team.abbreviation log with
        | .error e => .error e
        | .ok df_vs_team => summarize df_vs_team

/-- get_player_percentiles_season (percentile.py lines 14-82). -/
def get_player_percentiles_season (player_list : List PlayerIdentity)
    (log : List GameRecord) : Except Err PercResult :=
  match resolvePlayer player_list with
  | .error e => .error e
  | .ok _ => percentilesOf log

/-- get_player_percentiles_vs_team (percentile.py lines 175-277). -/
def get_player_percentiles_vs_team (player_list : List PlayerIdentity)
    (d : TeamDirectory) (opponent_team : String)
    (log : List GameRecord) : Except Err PercResult :=
  match resolvePlayer player_list with
  | .error e => .error e
  | .ok _ =>
    match resolveTeamPerc d opponent_team with
    | .error e => .error e
    | .ok team =>
      if log.isEmpty then .error .noData
      else
        match filterVsTeam team.abbreviation log with
        | .error e => .error e
        | .ok df_vs_team => percentilesOf df_vs_team

/-! Concrete fixtures used by witnesses and counterexamples. -/

/-- A synthetic team whose full name contains the word "Town". -/
def teamB : TeamIdentity := ⟨"Beta Town Wolves", "Wolves", "BTW"⟩

/-- A synthetic team whose nickname contains the word "Town". -/
def teamC : TeamIdentity := ⟨"Gamma Heights", "Townies", "GHT"⟩

/-- A directory in which the query "Town" matches teamB by full name and
teamC by nickname (the lookups are substring searches in the real roster
table, so one query can hit different teams in different columns). -/
def exDir : TeamDirectory where
  byAbbreviation := fun _ => none
  byFullName := fun s => if s = "Town" then [teamB] else []
  byNickname := fun s => if s = "Town" then [teamC] else []

/-- A synthetic team whose nickname is exactly "Foxes". -/
def teamD : TeamIdentity := ⟨"Delta City", "Foxes", "DCF"⟩

/-- A synthetic team whose nickname merely contains "Foxes". -/
def teamE : TeamIdentity := ⟨"Epsilon Town", "Flying Foxes", "EFF"⟩

/-- A directory in which the nickname lookup for "Foxes" returns two
candidates, exactly one of which matches the query exactly. -/
def exDir2 : TeamDirectory where
  byAbbreviation := fun _ => none
  byFullName := fun _ => []
  byNickname := fun s => if s = "Foxes" then [teamD, teamE] else []

/-- Home game against GSW. -/
def exG1 : GameRecord := ⟨some "LAL vs. GSW", 31, 8, 9, 1, 2, 4⟩

/-- Away game against BOS. -/
def exG2 : GameRecord := ⟨some "LAL @ BOS", 25, 7, 11, 0, 1, 3⟩

/-- Second home game against GSW. -/
def exG3 : GameRecord := ⟨some "LAL vs. GSW", 38, 10, 6, 2, 3, 5⟩

/-- A row whose MATCHUP cell is missing (pandas NaN). -/
def exGN : GameRecord := ⟨none, 12, 3, 4, 0, 1, 2⟩

/-- A sample resolved player. -/
def exP : PlayerIdentity := ⟨2544, "LeBron James"⟩

/-- A second, distinct player sharing a queried name. -/
def exP2 : PlayerIdentity := ⟨101, "LeBron James"⟩

/-- Auxiliary: a non-nil list has isEmpty false. -/
lemma isEmpty_false_of_ne_nil {α : Type} {l : List α} (h : l ≠ []) :
    l.isEmpty = false := by
  cases l with
  | nil => exact absurd rfl h
  | cons a l => rfl

/-- Auxiliary: verdictStats on a multi-candidate list raises the formatted
ambiguity error. -/
lemma verdictStats_of_one_lt {l : List TeamIdentity} (h : 1 < l.length) :
    verdictStats l = .error (.ambiguousTeams
      (l.map (fun tm => tm.full_name ++ " (" ++ tm.abbreviation ++ ")"))) := by
  rcases l with _ | ⟨a, _ | ⟨b, r⟩⟩
  · simp at h
  · simp at h
  · rfl

/-- Auxiliary: verdictPerc on a multi-candidate list raises the raw-list
ambiguity error. -/
lemma verdictPerc_of_one_lt {l : List TeamIdentity} (h : 1 < l.length) :
    verdictPerc l = .error (.ambiguousTeamsRaw l) := by
  rcases l with _ | ⟨a, _ | ⟨b, r⟩⟩
  · simp at h
  · simp at h
  · rfl

/-- C1 counterexample: on the input "Town" the stats-path resolver answers
with the full-name hit while the percentile-path resolver answers with the
nickname hit, so the percentile path does not try full names before
nicknames. -/
theorem claim1_counterexample :
    exDir.byFullName "Town" = [teamB]
    ∧ exDir.byNickname "Town" = [teamC]
    ∧ resolveTeamStats exDir "Town" = .ok teamB
    ∧ resolveTeamPerc exDir "Town" = .ok teamC
    ∧ teamB ≠ teamC :=
  ⟨rfl, rfl, rfl, rfl, by decide⟩

/-- C1 (amended): both resolvers try the abbreviation stage first (only
for inputs of at most 3 characters), and the first non-empty stage wins;
but the stats path then tries full name before nickname while the
percentile path tries nickname before full name. -/
theorem claim1_cascade_order (d : TeamDirectory) (t : String) :
    (abbrevStage d t ≠ [] →
      statsCandidates d t = abbrevStage d t
      ∧ percCandidates d t = abbrevStage d t)
    ∧ (abbrevStage d t = [] → d.byFullName t ≠ [] →
      statsCandidates d t = d.byFullName t)
    ∧ (abbrevStage d t = [] → d.byFullName t = [] →
      statsCandidates d t = nicknameNarrow d t)
    ∧ (abbrevStage d t = [] → d.byNickname t ≠ [] →
      percCandidates d t = d.byNickname t)
    ∧ (abbrevStage d t = [] → d.byNickname t = [] →
      percCandidates d t = d.byFullName t) := by
  refine ⟨?_, ?_, ?_, ?_, ?_⟩
  · intro h1
    constructor <;>
      simp [statsCandidates, percCandidates, isEmpty_false_of_ne_nil h1,
        isEmpty_false_of_ne_nil, h1]
  · intro h1 h2
    simp [statsCandidates, h1, isEmpty_false_of_ne_nil h2]
  · intro h1 h2
    simp [statsCandidates, h1, h2]
  · intro h1 h2
    simp [percCandidates, h1, isEmpty_false_of_ne_nil h2]
  · intro h1 h2
    simp [percCandidates, h1, h2]

/-- C1 witness: the conditional order facts instantiated on the concrete
directory exDir and query "Town". -/
theorem claim1_cascade_order_witness :
    statsCandidates exDir "Town" = exDir.byFullName "Town"
    ∧ percCandidates exDir "Town" = exDir.byNickname "Town" :=
  ⟨(claim1_cascade_order exDir "Town").2.1 rfl (by decide),
   (claim1_cascade_order exDir "Town").2.2.2.1 rfl (by decide)⟩

/-- C2 counterexample: for a single game the aggregator's standard
deviation is the pandas NaN (modelled none), not 0, because the sample
convention divides by games minus one. -/
theorem claim2_counterexample :
    (summarize [exG1]).toOption.map (fun s => s.std_devs .pts) = some none
    ∧ (summarize [exG1]).toOption.map (fun s => s.std_devs .pts)
        ≠ some (some 0) := by
  constructor
  · rfl
  · intro h
    rw [show (summarize [exG1]).toOption.map (fun s => s.std_devs .pts)
          = some none from rfl] at h
    simp at h

/-- C2 (amended): for more than one game the per-field standard deviation
follows the sample convention (its square times the length-minus-one
denominator recovers the squared-deviation sum), and for exactly one game
the standard deviation is undefined (pandas NaN, modelled none) rather
than 0. -/
theorem claim2_sample_convention (games : List GameRecord) (f : StatField)
    (s : StatSummary) (hs : summarize games = .ok s) :
    (1 < games.length →
      (s.std_devs f).map (fun v => v * ((games.length : ℚ) - 1))
        = some (((games.map (statValue f)).map
            (fun x => (x - meanQ (games.map (statValue f))) ^ 2)).sum))
    ∧ (games.length = 1 → s.std_devs f = none) := by
  rw [summarize] at hs
  split at hs
  · exact absurd hs (by simp)
  · rw [Except.ok.injEq] at hs
    subst hs
    constructor
    · intro hn
      have hden : ((games.length : ℚ) - 1) ≠ 0 := by
        have : (1 : ℚ) < (games.length : ℚ) := by exact_mod_cast hn
        intro hc; nlinarith
      simp only [sampleVariance, List.length_map]
      rw [if_neg (by omega : ¬ games.length ≤ 1)]
      simp only [Option.map_some']
      rw [div_mul_cancel₀ _ hden]
    · intro hn
      simp [sampleVariance, List.length_map, hn]

/-- The concrete summary produced by the aggregator on a two-game log. -/
def exSummary : StatSummary where
  averages := fun f => meanQ ([exG1, exG3].map (statValue f))
  std_devs := fun f => sampleVariance ([exG1, exG3].map (statValue f))
  games_played := 2

/-- C2 witness: the sample-convention identity instantiated on a concrete
two-game log. -/
theorem claim2_sample_convention_witness :
    (exSummary.std_devs .pts).map
        (fun v => v * ((([exG1, exG3] : List GameRecord).length : ℚ) - 1))
      = some (((([exG1, exG3] : List GameRecord).map (statValue .pts)).map
          (fun x => (x - meanQ (([exG1, exG3] : List GameRecord).map
            (statValue .pts))) ^ 2)).sum) :=
  (claim2_sample_convention [exG1, exG3] .pts exSummary rfl).1 (by norm_num)

/-- C3: the coefficient of variation equals 100 * (std / mean) for a
positive mean and 0 for a zero mean; the computation is a total function
(the zero-mean branch never divides). -/
theorem claim3_cv_guard (std avg : ℚ) :
    (0 < avg → coefficientOfVariation std avg = 100 * (std / avg))
    ∧ (avg = 0 → coefficientOfVariation std avg = 0) := by
  constructor
  · intro h; simp [coefficientOfVariation, h]
  · intro h; simp [coefficientOfVariation, h]

/-- C3 witness: both branches of the coefficient-of-variation guard at
concrete values. -/
theorem claim3_cv_guard_witness :
    coefficientOfVariation 3 12 = 100 * (3 / 12)
    ∧ coefficientOfVariation 3 0 = 0 :=
  ⟨(claim3_cv_guard 3 12).1 (by norm_num), (claim3_cv_guard 3 0).2 rfl⟩

/-- C4: the opponent filter returns exactly the games whose matchup string
contains the abbreviation as a case-insensitive substring, in original
order (a sublist), failing with NoData when nothing matches; on the
three-game example with opponent "GSW" it keeps the first and third games
in order. -/
theorem claim4_matchup_filter :
    (∀ (ab : String) (games : List GameRecord),
        List.Sublist (matchupFilter ab games) games
        ∧ (∀ g, g ∈ matchupFilter ab games ↔
            g ∈ games ∧ ∃ m, g.matchup = some m
              ∧ lowerChars ab <:+: lowerChars m)
        ∧ (matchupFilter ab games = [] →
            filterVsTeam ab games = .error .noData)
        ∧ (matchupFilter ab games ≠ [] →
            filterVsTeam ab games = .ok (matchupFilter ab games)))
    ∧ filterVsTeam "GSW" [exG1, exG2, exG3] = .ok [exG1, exG3] := by
  constructor
  · intro ab games
    refine ⟨List.filter_sublist _, ?_, ?_, ?_⟩
    · intro g
      rw [matchupFilter, List.mem_filter]
      constructor
      · rintro ⟨hmem, hmatch⟩
        refine ⟨hmem, ?_⟩
        rw [matchupMatches] at hmatch
        cases hm : g.matchup with
        | none => rw [hm] at hmatch; simp at hmatch
        | some m =>
          rw [hm] at hmatch
          exact ⟨m, rfl, of_decide_eq_true hmatch⟩
      · rintro ⟨hmem, m, hm, hinf⟩
        exact ⟨hmem, by rw [matchupMatches, hm]; exact decide_eq_true hinf⟩
    · intro h
      rw [filterVsTeam]
      simp only [h]
      rfl
    · intro h
      rw [filterVsTeam]
      simp only [isEmpty_false_of_ne_nil h]
      rfl
  · rfl

/-- C4 witness: the NoData branch of the filter applied to a log with no
matching games. -/
theorem claim4_matchup_filter_witness :
    filterVsTeam "GSW" [exG2] = .error .noData :=
  ((claim4_matchup_filter.1 "GSW" [exG2]).2.2.1 rfl)

/-- C6: the player resolver returns the single roster match, fails
NotFound on zero matches, and fails Ambiguous carrying the full candidate
list (hence a list whose length equals the match count) on two or more
matches. -/
theorem claim6_name_resolution (player_list : List PlayerIdentity) :
    (player_list = [] → resolvePlayer player_list = .error .notFound)
    ∧ (∀ p, player_list = [p] → resolvePlayer player_list = .ok p)
    ∧ (2 ≤ player_list.length →
        resolvePlayer player_list = .error (.ambiguousPlayers player_list))
    ∧ (∀ cs, resolvePlayer player_list = .error (.ambiguousPlayers cs) →
        cs.length = player_list.length) := by
  rcases player_list with _ | ⟨a, _ | ⟨b, rest⟩⟩ <;>
    refine ⟨?_, ?_, ?_, ?_⟩ <;> simp [resolvePlayer]

/-- C6 witness: the three branches of the player resolver at concrete
inputs. -/
theorem claim6_name_resolution_witness :
    resolvePlayer [] = .error .notFound
    ∧ resolvePlayer [exP] = .ok exP
    ∧ resolvePlayer [exP, exP2] = .error (.ambiguousPlayers [exP, exP2]) :=
  ⟨(claim6_name_resolution []).1 rfl,
   (claim6_name_resolution [exP]).2.1 exP rfl,
   (claim6_name_resolution [exP, exP2]).2.2.1 (by simp)⟩

/-- C7 counterexample: on the query "Foxes" with two nickname candidates,
the stats path narrows by exact nickname equality and succeeds, while the
percentile path performs no narrowing and raises an ambiguity error
carrying the raw candidate list (not formatted "full name (abbreviation)"
pairs). -/
theorem claim7_counterexample :
    resolveTeamStats exDir2 "Foxes" = .ok teamD
    ∧ resolveTeamPerc exDir2 "Foxes"
        = .error (.ambiguousTeamsRaw [teamD, teamE]) :=
  ⟨rfl, rfl⟩

/-- C7 (amended): in the stats path the nickname stage re-filters multiple
candidates by exact case-insensitive nickname equality and a surviving
multi-candidate set raises Ambiguous with formatted "full name
(abbreviation)" pairs; the percentile path performs no such narrowing and
its ambiguity error carries the raw candidate list. -/
theorem claim7_nickname_narrowing (d : TeamDirectory) (t : String) :
    (abbrevStage d t = [] → d.byFullName t = [] →
      1 < (d.byNickname t).length → exactNickMatches d t ≠ [] →
      statsCandidates d t = exactNickMatches d t)
    ∧ (1 < (statsCandidates d t).length →
      resolveTeamStats d t = .error (.ambiguousTeams
        ((statsCandidates d t).map
          (fun tm => tm.full_name ++ " (" ++ tm.abbreviation ++ ")"))))
    ∧ (abbrevStage d t = [] → d.byNickname t ≠ [] →
      percCandidates d t = d.byNickname t)
    ∧ (1 < (percCandidates d t).length →
      resolveTeamPerc d t = .error (.ambiguousTeamsRaw (percCandidates d t))) := by
  refine ⟨?_, ?_, ?_, ?_⟩
  · intro h1 h2 h3 h4
    simp [statsCandidates, nicknameNarrow, h1, h2, h3,
      isEmpty_false_of_ne_nil h4]
  · intro h
    exact verdictStats_of_one_lt h
  · intro h1 h2
    simp [percCandidates, h1, isEmpty_false_of_ne_nil h2]
  · intro h
    exact verdictPerc_of_one_lt h

/-- C7 witness: the narrowing facts instantiated on the concrete directory
exDir2 and query "Foxes". -/
theorem claim7_nickname_narrowing_witness :
    statsCandidates exDir2 "Foxes" = exactNickMatches exDir2 "Foxes"
    ∧ resolveTeamPerc exDir2 "Foxes"
        = .error (.ambiguousTeamsRaw (percCandidates exDir2 "Foxes")) :=
  ⟨(claim7_nickname_narrowing exDir2 "Foxes").1 rfl rfl (by decide) (by decide),
   (claim7_nickname_narrowing exDir2 "Foxes").2.2.2 (by decide)⟩

/-- C8: an empty game set always fails with NoData: the aggregator and
the percentile calculator reject an empty sequence, and every pipeline
consuming an empty provider response surfaces NoData once the resolution
steps succeed. -/
theorem claim8_empty_noData :
    summarize [] = .error .noData
    ∧ percentilesOf [] = .error .noData
    ∧ (∀ player_list p, resolvePlayer player_list = .ok p →
        get_player_season_stats player_list [] = .error .noData
        ∧ get_player_percentiles_season player_list [] = .error .noData)
    ∧ (∀ player_list p d ot tm, resolvePlayer player_list = .ok p →
        resolveTeamStats d ot = .ok tm →
        get_player_vs_team_stats player_list d ot [] = .error .noData)
    ∧ (∀ player_list p d ot tm, resolvePlayer player_list = .ok p →
        resolveTeamPerc d ot = .ok tm →
        get_player_percentiles_vs_team player_list d ot [] = .error .noData) := by
  refine ⟨rfl, rfl, ?_, ?_, ?_⟩
  · intro pl p h
    rw [get_player_season_stats, get_player_percentiles_season, h]
    exact ⟨rfl, rfl⟩
  · intro pl p d ot tm h1 h2
    rw [get_player_vs_team_stats, h1, h2]
    rfl
  · intro pl p d ot tm h1 h2
    rw [get_player_percentiles_vs_team, h1, h2]
    rfl

/-- C8 witness: the NoData propagation on concrete resolutions with an
empty provider response. -/
theorem claim8_empty_noData_witness :
    get_player_season_stats [exP] [] = .error .noData
    ∧ get_player_vs_team_stats [exP] exDir "Town" [] = .error .noData
    ∧ get_player_percentiles_vs_team [exP] exDir "Town" [] = .error .noData :=
  ⟨(claim8_empty_noData.2.2.1 [exP] exP rfl).1,
   claim8_empty_noData.2.2.2.1 [exP] exP exDir "Town" teamB rfl rfl,
   claim8_empty_noData.2.2.2.2 [exP] exP exDir "Town" teamC rfl rfl⟩

/-- C9: a game row with a missing matchup string never passes the opponent
filter (the na=False flag maps missing to non-matching), and the filter is
a total function on logs containing such rows; on a concrete mixed log the
missing-matchup row is dropped and the matching row kept. -/
theorem claim9_missing_matchup :
    (∀ (ab : String) (games : List GameRecord) (g : GameRecord),
        g.matchup = none → g ∉ matchupFilter ab games)
    ∧ matchupFilter "GSW" [exGN, exG1] = [exG1] := by
  constructor
  · intro ab games g hg hmem
    have h := (List.mem_filter.mp hmem).2
    rw [matchupMatches, hg] at h
    simp at h
  · rfl

/-- C9 witness: the missing-matchup exclusion applied to the concrete row
exGN. -/
theorem claim9_missing_matchup_witness :
    exGN ∉ matchupFilter "GSW" [exGN, exG1] :=
  claim9_missing_matchup.1 "GSW" [exGN, exG1] exGN rfl

/-! Percentile interpolation lemmas. -/

/-- Auxiliary: getD at an in-range index is get. -/
lemma getD_eq_get_of_lt (l : List ℚ) (n : ℕ) (h : n < l.length) :
    l.getD n 0 = l.get ⟨n, h⟩ := by
  simp [List.getD_eq_getElem?_getD, List.getElem?_eq_getElem h,
    List.get_eq_getElem]

/-- Auxiliary: getD at an in-range index is a member. -/
lemma getD_mem_of_lt (l : List ℚ) (n : ℕ) (h : n < l.length) :
    l.getD n 0 ∈ l := by
  rw [getD_eq_get_of_lt l n h]
  exact List.get_mem l n h

/-- Auxiliary: getD values of a sorted list increase with the index. -/
lemma sorted_getD_mono {s : List ℚ} (hs : List.Sorted (· ≤ ·) s)
    {i j : ℕ} (hij : i ≤ j) (hj : j < s.length) :
    s.getD i 0 ≤ s.getD j 0 := by
  rw [getD_eq_get_of_lt s i (lt_of_le_of_lt hij hj),
    getD_eq_get_of_lt s j hj]
  exact hs.rel_get_of_le (Fin.mk_le_mk.mpr hij)

/-- Auxiliary: the interpolated value is monotone in the virtual index
over a sorted list. -/
lemma interpAt_mono {s : List ℚ} (hs : List.Sorted (· ≤ ·) s) (hne : s ≠ [])
    {a b : ℚ} (h0 : 0 ≤ a) (hab : a ≤ b) (htop : b ≤ (s.length : ℚ) - 1) :
    interpAt s a ≤ interpAt s b := by
  have hn1 : 1 ≤ s.length := List.length_pos.mpr hne
  have hb0 : 0 ≤ b := le_trans h0 hab
  have fa0 : (0 : ℤ) ≤ ⌊a⌋ := Int.floor_nonneg.mpr h0
  have fb0 : (0 : ℤ) ≤ ⌊b⌋ := Int.floor_nonneg.mpr hb0
  have hcast : ((s.length : ℚ) - 1) = (((s.length : ℤ) - 1 : ℤ) : ℚ) := by
    push_cast; ring
  have hfb_top : ⌊b⌋ ≤ (s.length : ℤ) - 1 := by
    have h1 := Int.floor_mono htop
    rw [hcast, Int.floor_intCast] at h1
    exact h1
  have hfab : ⌊a⌋ ≤ ⌊b⌋ := Int.floor_mono hab
  set la := (⌊a⌋).toNat with hla
  set lb := (⌊b⌋).toNat with hlb
  have hlaZ : (la : ℤ) = ⌊a⌋ := Int.toNat_of_nonneg fa0
  have hlbZ : (lb : ℤ) = ⌊b⌋ := Int.toNat_of_nonneg fb0
  have hla_le : la ≤ lb := by omega
  have hlb_top : lb ≤ s.length - 1 := by omega
  have hla_top : la ≤ s.length - 1 := le_trans hla_le hlb_top
  have hlaq : (la : ℚ) ≤ a := by
    have h1 := Int.floor_le a
    rw [← hlaZ] at h1
    exact_mod_cast h1
  have haq : a < (la : ℚ) + 1 := by
    have h1 := Int.lt_floor_add_one a
    rw [← hlaZ] at h1
    exact_mod_cast h1
  have hlbq : (lb : ℚ) ≤ b := by
    have h1 := Int.floor_le b
    rw [← hlbZ] at h1
    exact_mod_cast h1
  have hla_lt : la < s.length := by omega
  have hlb_lt : lb < s.length := by omega
  have hia_lt : min (la + 1) (s.length - 1) < s.length := by
    have h1 := min_le_right (la + 1) (s.length - 1)
    omega
  have hib_lt : min (lb + 1) (s.length - 1) < s.length := by
    have h1 := min_le_right (lb + 1) (s.length - 1)
    omega
  have sva : s.getD la 0 ≤ s.getD (min (la + 1) (s.length - 1)) 0 :=
    sorted_getD_mono hs (le_min (by omega) hla_top) hia_lt
  have svb : s.getD lb 0 ≤ s.getD (min (lb + 1) (s.length - 1)) 0 :=
    sorted_getD_mono hs (le_min (by omega) hlb_top) hib_lt
  unfold interpAt
  rw [← hla, ← hlb]
  rcases eq_or_lt_of_le hla_le with heq | hlt
  · rw [heq]
    apply add_le_add_left
    apply mul_le_mul_of_nonneg_right
    · linarith
    · rw [← heq]; linarith [sva]
  · have step1 : s.getD la 0
        + (a - (la : ℚ)) * (s.getD (min (la + 1) (s.length - 1)) 0 - s.getD la 0)
        ≤ s.getD (min (la + 1) (s.length - 1)) 0 := by
      nlinarith [mul_nonneg (by linarith : (0:ℚ) ≤ 1 - (a - (la : ℚ)))
        (by linarith [sva] : (0:ℚ) ≤ s.getD (min (la + 1) (s.length - 1)) 0 - s.getD la 0)]
    have step2 : s.getD (min (la + 1) (s.length - 1)) 0 ≤ s.getD lb 0 :=
      sorted_getD_mono hs (le_trans (min_le_left _ _) (by omega)) hlb_lt
    have step3 : s.getD lb 0 ≤ s.getD lb 0
        + (b - (lb : ℚ)) * (s.getD (min (lb + 1) (s.length - 1)) 0 - s.getD lb 0) := by
      nlinarith [mul_nonneg (by linarith : (0:ℚ) ≤ b - (lb : ℚ))
        (by linarith [svb] : (0:ℚ) ≤ s.getD (min (lb + 1) (s.length - 1)) 0 - s.getD lb 0)]
    linarith

/-- Auxiliary: the interpolated value at the last virtual index is the
last sorted value. -/
lemma interpAt_last {s : List ℚ} (hne : s ≠ []) :
    interpAt s ((s.length : ℚ) - 1) = s.getD (s.length - 1) 0 := by
  have hn1 : 1 ≤ s.length := List.length_pos.mpr hne
  have hcast : ((s.length : ℚ) - 1) = (((s.length - 1 : ℕ) : ℤ) : ℚ) := by
    push_cast [hn1]; ring
  have hfl : (⌊((s.length : ℚ) - 1)⌋).toNat = s.length - 1 := by
    rw [hcast, Int.floor_intCast]
    exact Int.toNat_natCast _
  unfold interpAt
  rw [hfl]
  have hz : ((s.length : ℚ) - 1) - ((s.length - 1 : ℕ) : ℚ) = 0 := by
    push_cast [hn1]; ring
  rw [hz, zero_mul, add_zero]

/-- Auxiliary: the 100th percentile is a member of the list and an upper
bound of it. -/
lemma percentileLin_100_max {xs : List ℚ} (hne : xs ≠ []) :
    percentileLin 100 xs ∈ xs ∧ ∀ x ∈ xs, x ≤ percentileLin 100 xs := by
  have hsne : List.insertionSort (· ≤ ·) xs ≠ [] := by
    intro h
    have := List.length_insertionSort (· ≤ ·) xs
    rw [h] at this
    exact hne (List.length_eq_zero.mp this.symm)
  have hs : List.Sorted (· ≤ ·) (List.insertionSort (· ≤ ·) xs) :=
    List.sorted_insertionSort (· ≤ ·) xs
  have hperm := List.perm_insertionSort (· ≤ ·) xs
  have hq : percentileLin 100 xs
      = (List.insertionSort (· ≤ ·) xs).getD
          ((List.insertionSort (· ≤ ·) xs).length - 1) 0 := by
    rw [percentileLin, show (100 : ℚ) / 100
        * (((List.insertionSort (· ≤ ·) xs).length : ℚ) - 1)
        = ((List.insertionSort (· ≤ ·) xs).length : ℚ) - 1 by ring]
    exact interpAt_last hsne
  have hlen1 : 1 ≤ (List.insertionSort (· ≤ ·) xs).length :=
    List.length_pos.mpr hsne
  constructor
  · rw [hq]
    exact hperm.mem_iff.mp (getD_mem_of_lt _ _ (by omega))
  · intro x hx
    have hx' : x ∈ List.insertionSort (· ≤ ·) xs := hperm.mem_iff.mpr hx
    obtain ⟨i, hi⟩ := List.mem_iff_get.mp hx'
    rw [hq, ← hi, ← getD_eq_get_of_lt _ _ i.isLt]
    exact sorted_getD_mono hs (by omega) (by omega)

/-- Auxiliary: percentileLin is monotone in the percentile rank over the
range 0 to 100. -/
lemma percentileLin_mono {xs : List ℚ} (hne : xs ≠ []) {q1 q2 : ℚ}
    (h0 : 0 ≤ q1) (h12 : q1 ≤ q2) (h100 : q2 ≤ 100) :
    percentileLin q1 xs ≤ percentileLin q2 xs := by
  have hsne : List.insertionSort (· ≤ ·) xs ≠ [] := by
    intro h
    have := List.length_insertionSort (· ≤ ·) xs
    rw [h] at this
    exact hne (List.length_eq_zero.mp this.symm)
  have hs : List.Sorted (· ≤ ·) (List.insertionSort (· ≤ ·) xs) :=
    List.sorted_insertionSort (· ≤ ·) xs
  have hlen1 : 1 ≤ (List.insertionSort (· ≤ ·) xs).length :=
    List.length_pos.mpr hsne
  have hlq : (0 : ℚ) ≤ ((List.insertionSort (· ≤ ·) xs).length : ℚ) - 1 := by
    have : (1 : ℚ) ≤ ((List.insertionSort (· ≤ ·) xs).length : ℚ) := by
      exact_mod_cast hlen1
    linarith
  apply interpAt_mono hs hsne
  · exact mul_nonneg (by positivity) hlq
  · exact mul_le_mul_of_nonneg_right (by linarith) hlq
  · calc q2 / 100 * (((List.insertionSort (· ≤ ·) xs).length : ℚ) - 1)
        ≤ 1 * (((List.insertionSort (· ≤ ·) xs).length : ℚ) - 1) :=
          mul_le_mul_of_nonneg_right (by linarith) hlq
      _ = ((List.insertionSort (· ≤ ·) xs).length : ℚ) - 1 := one_mul _

/-- C5: the percentile calculator reproduces the hand-computed linear
interpolation on the value list 10, 20, 30, 40 (p25 = 17.5, p50 = 25,
p75 = 32.5, p100 = 40), and for every non-empty value list the 100th
percentile equals the maximum (it is a member and an upper bound). -/
theorem claim5_percentile_values :
    (percentileLin 25 [10, 20, 30, 40] = 35 / 2
      ∧ percentileLin 50 [10, 20, 30, 40] = 25
      ∧ percentileLin 75 [10, 20, 30, 40] = 65 / 2
      ∧ percentileLin 100 [10, 20, 30, 40] = 40)
    ∧ (∀ xs : List ℚ, xs ≠ [] →
        percentileLin 100 xs ∈ xs ∧ ∀ x ∈ xs, x ≤ percentileLin 100 xs) := by
  constructor
  · refine ⟨?_, ?_, ?_, ?_⟩ <;>
      norm_num [percentileLin, interpAt, List.insertionSort,
        List.orderedInsert, Int.toNat_ofNat,
        show Int.toNat 2 = 2 from rfl, show Int.toNat 3 = 3 from rfl]
  · exact fun xs h => percentileLin_100_max h

/-- C5 witness: the maximum property instantiated on the concrete value
list. -/
theorem claim5_percentile_values_witness :
    percentileLin 100 ([10, 20, 30, 40] : List ℚ) ∈
      ([10, 20, 30, 40] : List ℚ) :=
  (claim5_percentile_values.2 [10, 20, 30, 40] (by simp)).1

/-- C10: a successful percentile result is internally consistent: its
games_played equals the input length, and for every field entry the raw
value array has games_played entries and the quartiles are ordered
p25 ≤ p50 ≤ p75 ≤ p100. -/
theorem claim10_percentile_consistency (games : List GameRecord)
    (r : PercResult) (hr : percentilesOf games = .ok r) :
    r.games_played = games.length
    ∧ ∀ e ∈ r.perField,
        e.raw_data.length = r.games_played
        ∧ e.quart.p25 ≤ e.quart.p50
        ∧ e.quart.p50 ≤ e.quart.p75
        ∧ e.quart.p75 ≤ e.quart.p100 := by
  rw [percentilesOf] at hr
  split at hr
  · exact absurd hr (by simp)
  · rename_i hne
    have hgne : games ≠ [] := by
      intro h
      subst h
      simp at hne
    rw [Except.ok.injEq] at hr
    subst hr
    refine ⟨rfl, ?_⟩
    intro e he
    simp only [List.mem_map] at he
    obtain ⟨f, hf, rfl⟩ := he
    have hdata : games.map (statValue f) ≠ [] := by
      simp [hgne]
    refine ⟨by simp, ?_, ?_, ?_⟩
    · exact percentileLin_mono hdata (by norm_num) (by norm_num) (by norm_num)
    · exact percentileLin_mono hdata (by norm_num) (by norm_num) (by norm_num)
    · exact percentileLin_mono hdata (by norm_num) (by norm_num) (by norm_num)

/-- The concrete percentile result on a two-game log. -/
def exPerc : PercResult where
  perField := percStatFields.map (fun f =>
    { field := f
      quart :=
        { p25 := percentileLin 25 ([exG1, exG3].map (statValue f))
          p50 := percentileLin 50 ([exG1, exG3].map (statValue f))
          p75 := percentileLin 75 ([exG1, exG3].map (statValue f))
          p100 := percentileLin 100 ([exG1, exG3].map (statValue f)) }
      raw_data := [exG1, exG3].map (statValue f) })
  games_played := 2

/-- C10 witness: the consistency facts instantiated on a concrete
two-game log. -/
theorem claim10_percentile_consistency_witness :
    exPerc.games_played = ([exG1, exG3] : List GameRecord).length :=
  (claim10_percentile_consistency [exG1, exG3] exPerc rfl).1

end NBA
